import Mathlib

/-!
Shallow embedding of the tensor-op wrapper layer of this repository
(tfjs ops: `broadcastTo_`, `transpose_`, `multinomial_`), together with
proofs of the specified properties of the broadcasting shape resolver.

Shapes are ordered sequences of axis extents; JS `number[]` shapes coming
from an existing tensor are `List ℕ` (tensor shapes are non-negative
integers by construction), while the user-supplied target shape of
`broadcastTo`, which may hold arbitrary JS numbers before validation, is
modelled as `List ℚ`.
-/

namespace Tfjs

/-- Errors thrown by `broadcastTo_` after the dimension validation:
`rankMismatch` carries `shape.length` and `input.rank` (the source rank);
`incompatibleShapes` carries the original source shape `xShape` and the
requested target `shape`, as interpolated into the thrown message. -/
inductive BroadcastError where
  | rankMismatch (shapeLength inputRank : ℕ)
  | incompatibleShapes (xShape shape : List ℕ)
deriving DecidableEq

/-- Result of a successful `broadcastTo_` call, before the external kernel
runs: `inputShape` is the shape of the (possibly rank-padded) input tensor,
`reps` the computed per-axis repetition factors, `axes` the list of axes
with repetition factor above 1, and `isNoOpClone` records whether the
function returns `clone(input)` (when `axes.length === 0`) instead of
dispatching the `Tile` kernel with `reps`. -/
structure BroadcastResult where
  inputShape : List ℕ
  reps : List ℕ
  axes : List ℕ
  isNoOpClone : Bool
deriving DecidableEq

/-- The loop `for (let i = shape.length - 1; i >= 0; i--)` of
`broadcastTo_`: the counter argument `n` means the loop is about to process
axis `i = n - 1` and then continue downward; the `reps` argument is the
current state of the `reps` array (initially `Array.from(shape)`).
If `inputShape[i] === shape[i]` the loop writes `reps[i] = 1`; otherwise,
if `inputShape[i] !== 1` it throws; otherwise `reps[i]` keeps its initial
value `shape[i]`. -/
def repsLoop (xShape inputShape shape : List ℕ) : ℕ → List ℕ → Except BroadcastError (List ℕ)
  | 0, reps => .ok reps
  | n + 1, reps =>
    if inputShape.getD n 0 = shape.getD n 0 then
      repsLoop xShape inputShape shape n (reps.set n 1)
    else if inputShape.getD n 0 ≠ 1 then
      .error (.incompatibleShapes xShape shape)
    else
      repsLoop xShape inputShape shape n reps

/-- The axes requiring materialized tiling, as computed by
`reps.map((n, i) => n > 1 ? i : -1).filter(i => i >= 0)`: the indices of
the entries of `reps` that exceed 1, in order. -/
def tileAxes (reps : List ℕ) : List ℕ :=
  ((reps.enum).filter (fun q => 1 < q.2)).map Prod.fst

/-- Embedding of `broadcastTo_` (src/unnamed/part_000, lines 45-87) at the
shape level, after `assertNonNegativeIntegerDimensions` has passed (see
`broadcastToQ` for the raw entry point).  `xShape` is the source tensor's
shape, `shape` the requested target shape.  It mirrors the source: the
rank check, the `unshift(1)` padding loop, the reverse `reps` loop, the
tiling-axes computation, and the final clone-vs-tile decision. -/
def broadcastTo (xShape shape : List ℕ) : Except BroadcastError BroadcastResult :=
  if shape.length < xShape.length then
    .error (.rankMismatch shape.length xShape.length)
  else
    let inputShape :=
      if xShape.length < shape.length then
        List.replicate (shape.length - xShape.length) 1 ++ xShape
      else xShape
    match repsLoop xShape inputShape shape shape.length shape with
    | .error e => .error e
    | .ok reps =>
      let axes := tileAxes reps
      .ok ⟨inputShape, reps, axes, axes.length == 0⟩

/-- The left-padded source shape: `1`s prepended to `xShape` until its
length reaches `n` (for `n ≥ xShape.length`). -/
def padShape (xShape : List ℕ) (n : ℕ) : List ℕ :=
  List.replicate (n - xShape.length) 1 ++ xShape

/-- Functional characterization of the repetition factors the loop
computes on the compatible axes: on axis `i`, `1` when
`inputShape[i] = shape[i]` and `shape[i]` otherwise. -/
def broadcastReps (inputShape shape : List ℕ) : List ℕ :=
  List.zipWith (fun a b => if a = b then 1 else b) inputShape shape

lemma getD_set_same (l : List ℕ) (n a : ℕ) (h : n < l.length) :
    (l.set n a).getD n 0 = a := by
  rw [List.getD_eq_getElem _ _ (by simpa using h)]
  exact List.getElem_set_self _

lemma getD_set_other (l : List ℕ) {i j : ℕ} (a : ℕ) (h : i ≠ j) :
    (l.set i a).getD j 0 = l.getD j 0 := by
  by_cases hj : j < l.length
  · rw [List.getD_eq_getElem _ _ (by simpa using hj), List.getD_eq_getElem _ _ hj]
    exact List.getElem_set_ne h _
  · rw [List.getD_eq_default _ _ (by simpa using Nat.le_of_not_lt hj),
      List.getD_eq_default _ _ (Nat.le_of_not_lt hj)]

lemma broadcastReps_length {p s : List ℕ} (hl : p.length = s.length) :
    (broadcastReps p s).length = s.length := by
  simp [broadcastReps, hl]

lemma broadcastReps_getD {p s : List ℕ} (hl : p.length = s.length) {i : ℕ}
    (hi : i < s.length) :
    (broadcastReps p s).getD i 0 =
      if p.getD i 0 = s.getD i 0 then 1 else s.getD i 0 := by
  have hz : i < (broadcastReps p s).length := by rwa [broadcastReps_length hl]
  rw [List.getD_eq_getElem _ _ hz, List.getD_eq_getElem _ _ (hl ▸ hi),
    List.getD_eq_getElem _ _ hi]
  exact List.getElem_zipWith

lemma repsLoop_ok (x p s : List ℕ) (hp : p.length = s.length) :
    ∀ (n : ℕ) (reps : List ℕ), n ≤ s.length → reps.length = s.length →
      (∀ i, i < n → p.getD i 0 = s.getD i 0 ∨ p.getD i 0 = 1) →
      (∀ i, n ≤ i → reps.getD i 0 = (broadcastReps p s).getD i 0) →
      (∀ i, i < n → reps.getD i 0 = s.getD i 0) →
      repsLoop x p s n reps = .ok (broadcastReps p s)
  | 0, reps, _, hlen, _, hdone, _ => by
    simp only [repsLoop, Except.ok.injEq]
    refine List.ext_getElem (by rw [hlen, broadcastReps_length hp]) fun i h1 h2 => ?_
    have := hdone i (Nat.zero_le i)
    rwa [List.getD_eq_getElem _ _ h1, List.getD_eq_getElem _ _ h2] at this
  | n + 1, reps, hn, hlen, hcompat, hdone, hinit => by
    have hns : n < s.length := Nat.lt_of_lt_of_le (Nat.lt_succ_self n) hn
    by_cases hps : p.getD n 0 = s.getD n 0
    · simp only [repsLoop, if_pos hps]
      refine repsLoop_ok x p s hp n (reps.set n 1) (Nat.le_of_lt hns)
        (by rw [List.length_set, hlen]) (fun i hi => hcompat i (Nat.lt_succ_of_lt hi))
        (fun i hi => ?_) (fun i hi => ?_)
      · rcases Nat.eq_or_lt_of_le hi with hne | hlt
        · rw [← hne, getD_set_same reps n 1 (by rw [hlen]; exact hns),
            broadcastReps_getD hp hns, if_pos hps]
        · rw [getD_set_other reps 1 (Nat.ne_of_lt hlt)]
          exact hdone i hlt
      · rw [getD_set_other reps 1 (Nat.ne_of_gt hi)]
        exact hinit i (Nat.lt_succ_of_lt hi)
    · have hone : p.getD n 0 = 1 :=
        (hcompat n (Nat.lt_succ_self n)).resolve_left hps
      simp only [repsLoop, if_neg hps]
      rw [if_neg (not_not_intro hone)]
      refine repsLoop_ok x p s hp n reps (Nat.le_of_lt hns) hlen
        (fun i hi => hcompat i (Nat.lt_succ_of_lt hi)) (fun i hi => ?_)
        (fun i hi => hinit i (Nat.lt_succ_of_lt hi))
      rcases Nat.eq_or_lt_of_le hi with hne | hlt
      · rw [← hne, broadcastReps_getD hp hns, if_neg hps]
        exact hinit n (Nat.lt_succ_self n)
      · exact hdone i hlt

lemma repsLoop_error (x p s : List ℕ) :
    ∀ (n : ℕ) (reps : List ℕ),
      (∃ i, i < n ∧ p.getD i 0 ≠ s.getD i 0 ∧ p.getD i 0 ≠ 1) →
      repsLoop x p s n reps = .error (.incompatibleShapes x s)
  | 0, _, ⟨_, hi, _, _⟩ => absurd hi (Nat.not_lt_zero _)
  | n + 1, reps, ⟨i, hi, hne, hnone⟩ => by
    by_cases hps : p.getD n 0 = s.getD n 0
    · have hin : i < n := by
        rcases Nat.lt_succ_iff_lt_or_eq.1 hi with h | h
        · exact h
        · exact absurd (h ▸ hps) hne
      simp only [repsLoop, if_pos hps]
      exact repsLoop_error x p s n (reps.set n 1) ⟨i, hin, hne, hnone⟩
    · by_cases hone : p.getD n 0 = 1
      · have hin : i < n := by
          rcases Nat.lt_succ_iff_lt_or_eq.1 hi with h | h
          · exact h
          · exact absurd (h ▸ hone) hnone
        simp only [repsLoop, if_neg hps]
        rw [if_neg (not_not_intro hone)]
        exact repsLoop_error x p s n reps ⟨i, hin, hne, hnone⟩
      · simp only [repsLoop, if_neg hps]
        rw [if_pos hone]

lemma padShape_length {x : List ℕ} {n : ℕ} (h : x.length ≤ n) :
    (padShape x n).length = n := by
  simp only [padShape, List.length_append, List.length_replicate]
  omega

lemma inputShape_eq_padShape {x s : List ℕ} (h : x.length ≤ s.length) :
    (if x.length < s.length then
        List.replicate (s.length - x.length) 1 ++ x
      else x) = padShape x s.length := by
  by_cases hx : x.length < s.length
  · rw [if_pos hx]; rfl
  · have hxe : s.length - x.length = 0 := by omega
    rw [if_neg hx]
    simp [padShape, hxe]

theorem broadcastTo_ok (x s : List ℕ) (h : x.length ≤ s.length)
    (hc : ∀ i, i < s.length →
      (padShape x s.length).getD i 0 = s.getD i 0 ∨
        (padShape x s.length).getD i 0 = 1) :
    broadcastTo x s =
      .ok ⟨padShape x s.length, broadcastReps (padShape x s.length) s,
        tileAxes (broadcastReps (padShape x s.length) s),
        (tileAxes (broadcastReps (padShape x s.length) s)).length == 0⟩ := by
  have hlen : (padShape x s.length).length = s.length := padShape_length h
  have hloop : repsLoop x (padShape x s.length) s s.length s =
      .ok (broadcastReps (padShape x s.length) s) := by
    refine repsLoop_ok x (padShape x s.length) s hlen s.length s le_rfl rfl hc
      (fun i hi => ?_) (fun i _ => rfl)
    rw [List.getD_eq_default _ _ hi,
      List.getD_eq_default _ _ (by rw [broadcastReps_length hlen]; exact hi)]
  simp only [broadcastTo, if_neg (Nat.not_lt.2 h), inputShape_eq_padShape h, hloop]

theorem broadcastTo_incompat (x s : List ℕ) (h : x.length ≤ s.length)
    (hbad : ∃ i, i < s.length ∧ (padShape x s.length).getD i 0 ≠ s.getD i 0 ∧
      (padShape x s.length).getD i 0 ≠ 1) :
    broadcastTo x s = .error (.incompatibleShapes x s) := by
  have hloop : repsLoop x (padShape x s.length) s s.length s =
      .error (.incompatibleShapes x s) := repsLoop_error x _ s s.length s hbad
  simp only [broadcastTo, if_neg (Nat.not_lt.2 h), inputShape_eq_padShape h, hloop]

theorem broadcastTo_rankErr (x s : List ℕ) (h : s.length < x.length) :
    broadcastTo x s = .error (.rankMismatch s.length x.length) := by
  simp only [broadcastTo, if_pos h]

theorem broadcastTo_ok_inv {x s : List ℕ} {r : BroadcastResult}
    (h : x.length ≤ s.length) (hr : broadcastTo x s = .ok r) :
    r = ⟨padShape x s.length, broadcastReps (padShape x s.length) s,
        tileAxes (broadcastReps (padShape x s.length) s),
        (tileAxes (broadcastReps (padShape x s.length) s)).length == 0⟩ := by
  by_cases hc : ∀ i, i < s.length →
      (padShape x s.length).getD i 0 = s.getD i 0 ∨ (padShape x s.length).getD i 0 = 1
  · rw [broadcastTo_ok x s h hc] at hr
    exact (Except.ok.inj hr).symm
  · push_neg at hc
    obtain ⟨i, hi, h1, h2⟩ := hc
    rw [broadcastTo_incompat x s h ⟨i, hi, h1, h2⟩] at hr
    exact absurd hr (by simp)

lemma broadcastReps_self (l : List ℕ) :
    broadcastReps l l = List.replicate l.length 1 := by
  induction l with
  | nil => rfl
  | cons a t ih =>
    simp only [broadcastReps, List.zipWith_cons_cons, List.length_cons,
      List.replicate_succ] at ih ⊢
    rw [ih]
    simp

lemma tileAxes_all_le_one {l : List ℕ} (h : ∀ a ∈ l, a ≤ 1) : tileAxes l = [] := by
  unfold tileAxes
  rw [List.filter_eq_nil_iff.2 fun q hq => by
    simpa using Nat.not_lt.2 (h q.2 (List.snd_mem_of_mem_enum hq))]
  rfl

lemma getD_replicate_lt {n i a : ℕ} (h : i < n) :
    (List.replicate n a).getD i 0 = a := by
  rw [List.getD_eq_getElem _ _ (by simpa using h)]
  exact List.getElem_replicate _ _

lemma broadcastReps_set (S : List ℕ) (k m : ℕ) (hk : k < S.length)
    (h1 : S.getD k 0 = 1) (hm : m ≠ 1) :
    broadcastReps S (S.set k m) = (List.replicate S.length 1).set k m := by
  have hsl : S.length = (S.set k m).length := (List.length_set S k m).symm
  have hgd : ∀ i, i < S.length →
      (broadcastReps S (S.set k m)).getD i 0 =
        ((List.replicate S.length 1).set k m).getD i 0 := by
    intro i hi
    rw [broadcastReps_getD hsl (by rwa [← hsl])]
    by_cases hik : k = i
    · subst hik
      rw [h1, getD_set_same S k m hk, if_neg fun hh => hm hh.symm,
        getD_set_same _ k m (by simpa using hk)]
    · rw [getD_set_other S m hik, if_pos rfl, getD_set_other _ m hik,
        getD_replicate_lt hi]
  refine List.ext_getElem ?_ fun i hL hR => ?_
  · rw [broadcastReps_length hsl, ← hsl, List.length_set, List.length_replicate]
  · have hiS : i < S.length := by
      rw [broadcastReps_length hsl, ← hsl] at hL
      exact hL
    have := hgd i hiS
    rwa [List.getD_eq_getElem _ _ hL, List.getD_eq_getElem _ _ hR] at this

/-- State-threaded rendering of `broadcastTo_` for the frame property: the
caller's two argument arrays are part of the state and are handed back with
the result.  Every write in the source targets a fresh copy —
`input.shape.slice()` (line 58) copies before the `unshift(1)` loop and
`Array.from(shape)` (line 66) copies before the `reps[i] = 1` writes — so
the computation only reads `xShape` and `shape`. -/
def broadcastToFrame (xShape shape : List ℕ) :
    Except BroadcastError BroadcastResult × List ℕ × List ℕ :=
  if shape.length < xShape.length then
    (.error (.rankMismatch shape.length xShape.length), xShape, shape)
  else
    let inputShape :=
      if xShape.length < shape.length then
        List.replicate (shape.length - xShape.length) 1 ++ xShape
      else xShape
    match repsLoop xShape inputShape shape shape.length shape with
    | .error e => (.error e, xShape, shape)
    | .ok reps =>
      let axes := tileAxes reps
      (.ok ⟨inputShape, reps, axes, axes.length == 0⟩, xShape, shape)

theorem broadcastToFrame_eq (x s : List ℕ) :
    broadcastToFrame x s = (broadcastTo x s, x, s) := by
  unfold broadcastToFrame broadcastTo
  by_cases h : s.length < x.length
  · rw [if_pos h, if_pos h]
  · rw [if_neg h, if_neg h]
    dsimp only
    cases repsLoop x
        (if x.length < s.length then List.replicate (s.length - x.length) 1 ++ x
          else x) s s.length s <;> rfl

/-- Modelled from the spec: `assertNonNegativeIntegerDimensions`, the
validator imported from `../util_base` (its body is not part of this
excerpt) that `broadcastTo_` applies to the requested `shape` at line 50,
before anything else.  Per the data-model invariant that every axis extent
is a non-negative integer, it accepts a shape exactly when every entry is an
integer (denominator 1) that is not negative. -/
def assertNonNegativeIntegerDimensions (shape : List ℚ) : Bool :=
  shape.all fun d => d.den == 1 && decide (0 ≤ d)

/-- Errors of the raw `broadcastTo_` entry point, including the dimension
validation failure thrown by `assertNonNegativeIntegerDimensions`. -/
inductive BroadcastErrorQ where
  | invalidDimensions (shape : List ℚ)
  | rankMismatch (shapeLength inputRank : ℕ)
  | incompatibleShapes (xShape shape : List ℕ)
deriving DecidableEq

/-- A validated target shape read back as natural numbers (exact once every
entry is a non-negative integer). -/
def toNatShape (shape : List ℚ) : List ℕ :=
  shape.map fun d => d.num.toNat

/-- Raw entry point of `broadcastTo_`: the requested target shape arrives as
arbitrary JS numbers (`List ℚ`).  Line 50 validates it before the rank check
of line 52; after validation every entry is a non-negative integer, so the
rest of the function is `broadcastTo` over the integer-valued shape. -/
def broadcastToQ (xShape : List ℕ) (shape : List ℚ) :
    Except BroadcastErrorQ BroadcastResult :=
  if assertNonNegativeIntegerDimensions shape then
    match broadcastTo xShape (toNatShape shape) with
    | .ok r => .ok r
    | .error (.rankMismatch a b) => .error (.rankMismatch a b)
    | .error (.incompatibleShapes a b) => .error (.incompatibleShapes a b)
  else
    .error (.invalidDimensions shape)

/-- Tensor dtypes of this layer (tfjs `DataType`). -/
inductive DType where
  | float32
  | int32
  | bool
  | complex64
  | string
deriving DecidableEq

/-- A tensor as this wrapper layer sees it: a shape, the flattened values,
and a dtype.  `α` is the type of the stored values. -/
structure Tensor (α : Type) where
  shape : List ℕ
  data : List α
  dtype : DType
deriving DecidableEq

/-- Number of axes of the tensor (`$x.rank`). -/
def Tensor.rank {α : Type} (t : Tensor α) : ℕ :=
  t.shape.length

/-- Number of elements of the tensor (`$logits.size`), the product of the
axis extents. -/
def Tensor.size {α : Type} (t : Tensor α) : ℕ :=
  t.shape.prod

/-- Failures of the two `util.assert` calls of `transpose_`
(src/unnamed/part_001, lines 60-69). -/
inductive TransposeError where
  | rankPermMismatch (rank permLength : ℕ)
  | permEntryOutOfRange (perm : List ℤ) (rank : ℕ)
deriving DecidableEq

/-- What `transpose_` returns when it does not throw: a clone of the input
(`$x.clone()`, rank 0 or 1), a single `Transpose` kernel dispatch, or the
complex64 path that transposes real and imaginary parts separately
(conjugating the imaginary part when requested). -/
inductive TransposeOutcome (α : Type) where
  | cloneOf (t : Tensor α)
  | kernel (t : Tensor α) (perm : List ℤ)
  | complexKernel (t : Tensor α) (perm : List ℤ) (conjugate : Bool)
deriving DecidableEq

/-- Embedding of `transpose_` (src/unnamed/part_001, lines 53-98).  `perm`
entries are JS numbers that may be negative, modelled as `ℤ`; when `perm`
is not given it defaults to `[n-1, ..., 0]`.  The two `util.assert` calls
throw when their condition is false; then rank 0 or 1 returns a clone, and
otherwise a kernel dispatch is produced. -/
def transpose {α : Type} (x : Tensor α) (permOpt : Option (List ℤ))
    (conjugate : Bool) : Except TransposeError (TransposeOutcome α) :=
  let perm := permOpt.getD (((List.range x.rank).map Int.ofNat).reverse)
  if x.rank = perm.length then
    if perm.all (fun a => decide (0 ≤ a) && decide (a < (x.rank : ℤ))) then
      if x.rank ≤ 1 then
        .ok (.cloneOf x)
      else if x.dtype = .complex64 then
        .ok (.complexKernel x perm conjugate)
      else
        .ok (.kernel x perm)
    else
      .error (.permEntryOutOfRange perm x.rank)
  else
    .error (.rankPermMismatch x.rank perm.length)

/-- The validation failures `multinomial_` throws before dispatching
(src/unnamed/part_000, lines 250-257). -/
inductive MultinomialError where
  | tooFewOutcomes (numOutcomes : ℕ)
  | badRank (rank : ℕ)
deriving DecidableEq

/-- A successful `multinomial_` call at the shape level: the shape of the
rank-2 logits handed to the kernel and the shape of the returned tensor. -/
structure MultinomialDispatch where
  logits2DShape : List ℕ
  outputShape : List ℕ
deriving DecidableEq

/-- Modelled from the spec: the `Multinomial` kernel, run through the
external engine (not part of this excerpt), accepts a rank-2 logits tensor
of shape `[batchSize, numOutcomes]` and returns a rank-2 tensor of shape
`[batchSize, numSamples]`, per the documented return contract of the op. -/
def multinomialKernelShape (logits2DShape : List ℕ) (numSamples : ℕ) : List ℕ :=
  [logits2DShape.getD 0 1, numSamples]

/-- Embedding of `multinomial_` (src/unnamed/part_000, lines 244-276) at the
shape level: the two validation throws, the reshape of a rank-1 input to
`[1, -1]` (that is, `[1, size]`), the kernel dispatch, and the final
reshape of the rank-2 kernel result to `[res.size]` for a rank-1 input. -/
def multinomial {α : Type} (logits : Tensor α) (numSamples : ℕ) :
    Except MultinomialError MultinomialDispatch :=
  let numOutcomes := logits.size
  let origRank := logits.rank
  if numOutcomes < 2 then
    .error (.tooFewOutcomes numOutcomes)
  else if 2 < origRank then
    .error (.badRank origRank)
  else
    let logits2DShape := if origRank = 1 then [1, logits.size] else logits.shape
    let resShape := multinomialKernelShape logits2DShape numSamples
    let outputShape := if origRank = 1 then [resShape.prod] else resShape
    .ok ⟨logits2DShape, outputShape⟩

end Tfjs

namespace Tfjs

example : broadcastTo [2, 3] [2, 4] = .error (.incompatibleShapes [2, 3] [2, 4]) := rfl

example : broadcastTo [1, 2, 3] [4] = .error (.rankMismatch 1 3) := rfl

example : broadcastTo [3] [2, 3] = .ok ⟨[1, 3], [2, 1], [0], false⟩ := rfl

example : broadcastTo [1, 4] [5, 4] = .ok ⟨[1, 4], [5, 1], [0], false⟩ := rfl

example : broadcastTo [2, 3] [2, 3] = .ok ⟨[2, 3], [1, 1], [], true⟩ := rfl

/-- C1: For every source and target shape of equal rank after left-padding
the source with 1s, the resolver yields repetition 1 on each axis where the
padded source equals the target, yields the target extent on each axis
where the padded source is 1, and otherwise fails with the
incompatible-shapes error reporting both shapes; in particular resolving
[2,3] against [2,4] fails with that error. -/
theorem claim_C1_axis_rules (x s : List ℕ) (h : x.length ≤ s.length) :
    ((∀ i, i < s.length →
        (padShape x s.length).getD i 0 = s.getD i 0 ∨
          (padShape x s.length).getD i 0 = 1) →
      ∃ r, broadcastTo x s = .ok r ∧
        ∀ i, i < s.length →
          ((padShape x s.length).getD i 0 = s.getD i 0 →
            r.reps.getD i 0 = 1) ∧
          ((padShape x s.length).getD i 0 = 1 →
            r.reps.getD i 0 = s.getD i 0)) ∧
    ((∃ i, i < s.length ∧ (padShape x s.length).getD i 0 ≠ s.getD i 0 ∧
        (padShape x s.length).getD i 0 ≠ 1) →
      broadcastTo x s = .error (.incompatibleShapes x s)) ∧
    broadcastTo [2, 3] [2, 4] = .error (.incompatibleShapes [2, 3] [2, 4]) := by
  refine ⟨fun hc => ⟨_, broadcastTo_ok x s h hc, fun i hi => ⟨?_, ?_⟩⟩,
    broadcastTo_incompat x s h, rfl⟩
  · intro he
    rw [broadcastReps_getD (padShape_length h) hi, if_pos he]
  · intro h1
    rw [broadcastReps_getD (padShape_length h) hi]
    by_cases he : (padShape x s.length).getD i 0 = s.getD i 0
    · rw [if_pos he, ← he, h1]
    · rw [if_neg he]

/-- C1 witness at source [1,3] and target [4,3]. -/
theorem claim_C1_axis_rules_witness :
    ∃ r, broadcastTo [1, 3] [4, 3] = .ok r ∧
      ∀ i, i < ([4, 3] : List ℕ).length →
        ((padShape [1, 3] ([4, 3] : List ℕ).length).getD i 0 =
            ([4, 3] : List ℕ).getD i 0 → r.reps.getD i 0 = 1) ∧
        ((padShape [1, 3] ([4, 3] : List ℕ).length).getD i 0 = 1 →
          r.reps.getD i 0 = ([4, 3] : List ℕ).getD i 0) :=
  (claim_C1_axis_rules [1, 3] [4, 3] (by decide)).1 (by decide)

/-- C2: The resolver fails with a rank-mismatch error reporting both ranks
exactly when the target shape is shorter than the source shape; in
particular resolving [1,2,3] against [4] fails this way, and with target
rank at least the source rank no rank error is ever raised. -/
theorem claim_C2_rank_check (x s : List ℕ) :
    ((∃ a b, broadcastTo x s = .error (.rankMismatch a b)) ↔
      s.length < x.length) ∧
    (s.length < x.length →
      broadcastTo x s = .error (.rankMismatch s.length x.length)) ∧
    broadcastTo [1, 2, 3] [4] = .error (.rankMismatch 1 3) := by
  refine ⟨⟨?_, fun hlt => ⟨s.length, x.length, broadcastTo_rankErr x s hlt⟩⟩,
    broadcastTo_rankErr x s, rfl⟩
  rintro ⟨a, b, hab⟩
  by_contra hlt
  have hle : x.length ≤ s.length := Nat.le_of_not_lt hlt
  by_cases hc : ∀ i, i < s.length →
      (padShape x s.length).getD i 0 = s.getD i 0 ∨
        (padShape x s.length).getD i 0 = 1
  · rw [broadcastTo_ok x s hle hc] at hab
    exact absurd hab (by simp)
  · push_neg at hc
    obtain ⟨i, hi, h1, h2⟩ := hc
    rw [broadcastTo_incompat x s hle ⟨i, hi, h1, h2⟩] at hab
    exact absurd hab (by simp)

/-- C2 witness: the claimed rank failure at source [1,2,3] and target [4]. -/
theorem claim_C2_rank_check_witness :
    broadcastTo [1, 2, 3] [4] = .error (.rankMismatch 1 3) :=
  (claim_C2_rank_check [1, 2, 3] [4]).2.1 (by decide)

/-- C3: when the source rank is strictly smaller than the target rank, the
resolver left-pads the source with axes of extent 1 (the padded shape is
1s prepended to the source), and on success the returned repetition
sequence has the target's rank. -/
theorem claim_C3_left_pad (x s : List ℕ) (h : x.length < s.length) :
    ∀ r, broadcastTo x s = .ok r →
      r.inputShape = List.replicate (s.length - x.length) 1 ++ x ∧
      r.reps.length = s.length := by
  intro r hr
  have hle : x.length ≤ s.length := Nat.le_of_lt h
  rw [broadcastTo_ok_inv hle hr]
  exact ⟨rfl, broadcastReps_length (padShape_length hle)⟩

/-- C3 witness at source [3] and target [2,3]. -/
theorem claim_C3_left_pad_witness :
    ∃ r, broadcastTo [3] [2, 3] = .ok r ∧
      r.inputShape = List.replicate 1 1 ++ [3] ∧ r.reps.length = 2 :=
  ⟨⟨[1, 3], [2, 1], [0], false⟩, rfl,
    claim_C3_left_pad [3] [2, 3] (by decide) ⟨[1, 3], [2, 1], [0], false⟩ rfl⟩

/-- C4: resolving any shape S against itself succeeds with all-1
repetitions; no axis requires tiling, so the result is a no-op clone of
the (trivially padded) source rather than a tiled tensor. -/
theorem claim_C4_identity (S : List ℕ) :
    broadcastTo S S = .ok ⟨S, List.replicate S.length 1, [], true⟩ := by
  have hps : padShape S S.length = S := by simp [padShape]
  have h := broadcastTo_ok S S le_rfl fun i _ => Or.inl (by rw [hps])
  rw [hps, broadcastReps_self S,
    tileAxes_all_le_one fun a ha => Nat.le_of_eq (List.eq_of_mem_replicate ha)] at h
  exact h

/-- C5: for a shape S with axis k of extent 1 and a target equal to S
except that axis k is enlarged to m, the resolver succeeds with repetition
m on axis k and 1 on every other axis; in particular resolving [1,4]
against [5,4] yields repetitions [5,1]. -/
theorem claim_C5_singleton_axis (S : List ℕ) (k m : ℕ) (hk : k < S.length)
    (h1 : S.getD k 0 = 1) (hm : 1 < m) :
    (∃ r, broadcastTo S (S.set k m) = .ok r ∧
      r.reps = (List.replicate S.length 1).set k m) ∧
    (∃ r, broadcastTo [1, 4] [5, 4] = .ok r ∧ r.reps = [5, 1]) := by
  refine ⟨?_, ⟨⟨[1, 4], [5, 1], [0], false⟩, rfl, rfl⟩⟩
  have hle : S.length ≤ (S.set k m).length := by rw [List.length_set]
  have hpad : padShape S (S.set k m).length = S := by
    simp [padShape, List.length_set]
  have hcompat : ∀ i, i < (S.set k m).length →
      (padShape S (S.set k m).length).getD i 0 = (S.set k m).getD i 0 ∨
        (padShape S (S.set k m).length).getD i 0 = 1 := by
    intro i _
    rw [hpad]
    by_cases hik : k = i
    · subst hik
      exact Or.inr h1
    · exact Or.inl (getD_set_other S m hik).symm
  refine ⟨_, broadcastTo_ok S (S.set k m) hle hcompat, ?_⟩
  show broadcastReps (padShape S (S.set k m).length) (S.set k m) = _
  rw [hpad, broadcastReps_set S k m hk h1 (Nat.ne_of_gt hm)]

/-- C5 witness at S = [1,4], axis 0 enlarged to 5. -/
theorem claim_C5_singleton_axis_witness :
    ∃ r, broadcastTo [1, 4] (([1, 4] : List ℕ).set 0 5) = .ok r ∧
      r.reps = (List.replicate ([1, 4] : List ℕ).length 1).set 0 5 :=
  (claim_C5_singleton_axis [1, 4] 0 5 (by decide) (by decide) (by decide)).1

/-- C6 counterexample: resolving [3] against [2,3] does not yield
repetitions [1,1] with no tiling axes; axis 0 of the padded source [1,3]
has extent 1 against target extent 2, so its repetition factor is 2. -/
theorem claim_C6_counterexample :
    ¬ ∃ r, broadcastTo [3] [2, 3] = .ok r ∧ r.reps = [1, 1] ∧
      r.axes = [] ∧ r.isNoOpClone = true := by
  rintro ⟨r, hr, hreps, -, -⟩
  have hr0 : broadcastTo [3] [2, 3] = .ok ⟨[1, 3], [2, 1], [0], false⟩ := rfl
  rw [hr0] at hr
  rw [← Except.ok.inj hr] at hreps
  exact absurd hreps (by decide)

/-- C6 (amended): resolving [3] against [2,3] left-pads the source to
[1,3] and yields repetitions [2,1]; axis 0 requires materialized tiling
(repetition 2), so the result is a tiled tensor, not a no-op copy. -/
theorem claim_C6_amended :
    broadcastTo [3] [2, 3] = .ok ⟨[1, 3], [2, 1], [0], false⟩ := rfl

/-- C7: the resolve computation has no side effects on its arguments: the
state-threaded rendering hands both argument shape arrays back exactly as
they were received, and its answer is the pure function of the two
values. -/
theorem claim_C7_no_side_effects (x s : List ℕ) :
    (broadcastToFrame x s).2.1 = x ∧ (broadcastToFrame x s).2.2 = s ∧
    (broadcastToFrame x s).1 = broadcastTo x s := by
  rw [broadcastToFrame_eq]
  exact ⟨rfl, rfl, rfl⟩

/-- C8: before any rank comparison, `broadcastTo` validates every extent of
the requested target shape; any target containing a negative or fractional
extent makes the call fail with the dimension-validation error, regardless
of the source shape (in particular even when the ranks also mismatch). -/
theorem claim_C8_dim_validation (xShape : List ℕ) (shape : List ℚ)
    (hbad : ∃ d ∈ shape, d < 0 ∨ d.den ≠ 1) :
    broadcastToQ xShape shape = .error (.invalidDimensions shape) := by
  have hfalse : assertNonNegativeIntegerDimensions shape = false := by
    obtain ⟨d, hd, hcase⟩ := hbad
    unfold assertNonNegativeIntegerDimensions
    rw [List.all_eq_false]
    refine ⟨d, hd, ?_⟩
    rcases hcase with hneg | hden
    · simp only [Bool.and_eq_true, decide_eq_true_eq, not_and]
      exact fun _ hle => absurd hle (not_le.2 hneg)
    · simp only [Bool.and_eq_true, beq_iff_eq, not_and]
      exact fun hh => absurd hh hden
  simp [broadcastToQ, hfalse]

/-- C8 witness: a negative extent (with a genuine rank mismatch that is
nevertheless not reported) and a fractional extent. -/
theorem claim_C8_dim_validation_witness :
    broadcastToQ [1, 2, 3] [(-1 : ℚ)] =
      .error (.invalidDimensions [(-1 : ℚ)]) ∧
    broadcastToQ [2] [(1 : ℚ) / 2, 4] =
      .error (.invalidDimensions [(1 : ℚ) / 2, 4]) :=
  ⟨claim_C8_dim_validation [1, 2, 3] [(-1 : ℚ)]
      ⟨-1, by simp, Or.inl (by norm_num)⟩,
    claim_C8_dim_validation [2] [(1 : ℚ) / 2, 4]
      ⟨(1 : ℚ) / 2, by simp, Or.inr (by norm_num)⟩⟩

/-- C9: for a tensor of rank 0 or 1, with no permutation argument or a
valid permutation of matching length, `transpose` returns a clone whose
shape and values equal the input's, without dispatching a `Transpose`
kernel. -/
theorem claim_C9_low_rank_clone {α : Type} [DecidableEq α] (x : Tensor α)
    (permOpt : Option (List ℤ)) (conjugate : Bool) (hr : x.rank ≤ 1)
    (hperm : ∀ p, permOpt = some p →
      p.length = x.rank ∧ ∀ a ∈ p, 0 ≤ a ∧ a < (x.rank : ℤ)) :
    ∃ t, transpose x permOpt conjugate = .ok (.cloneOf t) ∧
      t.shape = x.shape ∧ t.data = x.data := by
  have hspec : (permOpt.getD (((List.range x.rank).map Int.ofNat).reverse)).length
        = x.rank ∧
      ∀ a ∈ permOpt.getD (((List.range x.rank).map Int.ofNat).reverse),
        0 ≤ a ∧ a < (x.rank : ℤ) := by
    cases permOpt with
    | none =>
      refine ⟨by simp, fun a ha => ?_⟩
      rw [Option.getD_none, List.mem_reverse, List.mem_map] at ha
      obtain ⟨i, hi, rfl⟩ := ha
      rw [List.mem_range] at hi
      exact ⟨Int.ofNat_nonneg i, by rw [Int.ofNat_eq_natCast]; exact_mod_cast hi⟩
    | some p =>
      obtain ⟨hl, hrange⟩ := hperm p rfl
      exact ⟨by rw [Option.getD_some]; exact hl,
        by rw [Option.getD_some]; exact hrange⟩
  refine ⟨x, ?_, rfl, rfl⟩
  unfold transpose
  rw [if_pos hspec.1.symm, if_pos ?_, if_pos hr]
  rw [List.all_eq_true]
  intro a ha
  obtain ⟨h0, h1⟩ := hspec.2 a ha
  simp [h0, h1]

/-- C9 witness: a rank-1 tensor with the explicit identity permutation. -/
theorem claim_C9_low_rank_clone_witness :
    ∃ t, transpose (⟨[3], [10, 20, 30], .float32⟩ : Tensor ℕ)
        (some [0]) false = .ok (.cloneOf t) ∧
      t.shape = [3] ∧ t.data = [10, 20, 30] :=
  claim_C9_low_rank_clone ⟨[3], [10, 20, 30], .float32⟩ (some [0]) false
    (by decide)
    (fun p hp => by
      injection hp with h
      subst h
      exact ⟨by decide, by decide⟩)

/-- C10: `multinomial` fails before any kernel dispatch whenever the
logits have fewer than 2 elements or rank above 2; otherwise the output
rank equals the input rank, a rank-1 input yielding shape [numSamples]
and a rank-2 input a rank-2 result. -/
theorem claim_C10_multinomial {α : Type} [DecidableEq α] (logits : Tensor α)
    (numSamples : ℕ) :
    ((logits.size < 2 ∨ 2 < logits.rank) →
      ∃ e, multinomial logits numSamples = .error e) ∧
    (2 ≤ logits.size → logits.rank ≤ 2 →
      ∃ d, multinomial logits numSamples = .ok d ∧
        d.outputShape.length = logits.rank ∧
        (logits.rank = 1 → d.outputShape = [numSamples]) ∧
        (logits.rank = 2 → d.outputShape.length = 2)) := by
  constructor
  · intro hfail
    by_cases hsize : logits.size < 2
    · exact ⟨.tooFewOutcomes logits.size, by simp [multinomial, hsize]⟩
    · have hrank : 2 < logits.rank := hfail.resolve_left hsize
      exact ⟨.badRank logits.rank,
        by simp [multinomial, hsize, if_pos hrank]⟩
  · intro hs hr
    have hsize : ¬ logits.size < 2 := Nat.not_lt.2 hs
    have hrank : ¬ 2 < logits.rank := Nat.not_lt.2 hr
    obtain ⟨shape, data, dtype⟩ := logits
    match shape with
    | [] =>
      exact absurd hs (by simp [Tensor.size])
    | [n] =>
      refine ⟨⟨[1, n], [numSamples]⟩, ?_, by simp [Tensor.rank], ?_, ?_⟩
      · simp only [multinomial, Tensor.size, Tensor.rank] at hsize ⊢
        rw [if_neg hsize]
        simp [multinomialKernelShape]
      · intro _
        rfl
      · intro hh
        exact absurd hh (by simp [Tensor.rank])
    | [a, b] =>
      refine ⟨⟨[a, b], [a, numSamples]⟩, ?_, by simp [Tensor.rank], ?_, ?_⟩
      · simp only [multinomial, Tensor.size, Tensor.rank] at hsize ⊢
        rw [if_neg hsize]
        simp [multinomialKernelShape]
      · intro hh
        exact absurd hh (by simp [Tensor.rank])
      · intro _
        rfl
    | a :: b :: c :: t =>
      exact absurd hr (by simp [Tensor.rank])

/-- C10 witness: a rank-3 input of size 6 is rejected, and a rank-1 input
of size 5 with 4 samples yields output shape [4]. -/
theorem claim_C10_multinomial_witness :
    (∃ e, multinomial (⟨[1, 2, 3], List.replicate 6 0, .float32⟩ : Tensor ℕ) 4 =
      .error e) ∧
    (∃ d, multinomial (⟨[5], List.replicate 5 0, .float32⟩ : Tensor ℕ) 4 =
        .ok d ∧
      d.outputShape.length = (⟨[5], List.replicate 5 0, .float32⟩ : Tensor ℕ).rank ∧
      ((⟨[5], List.replicate 5 0, .float32⟩ : Tensor ℕ).rank = 1 →
        d.outputShape = [4]) ∧
      ((⟨[5], List.replicate 5 0, .float32⟩ : Tensor ℕ).rank = 2 →
        d.outputShape.length = 2)) :=
  ⟨(claim_C10_multinomial ⟨[1, 2, 3], List.replicate 6 0, .float32⟩ 4).1
      (Or.inr (by decide)),
    (claim_C10_multinomial ⟨[5], List.replicate 5 0, .float32⟩ 4).2
      (by decide) (by decide)⟩

end Tfjs
